import Mathlib

/-!
Verification of the end-to-end encryption subsystem of the SecureChat
frontend (frontend_securechat).

Shallow embedding conventions:
- JavaScript strings carrying binary data (base64 payloads, plaintexts) are
  modelled as `Bytes := List Nat`, already decoded; `btoa`/`atob` are the
  identity on this representation.  The base64 STRING length of an `n`-byte
  buffer (what `m.ciphertext.length` measures in the components) is `b64Len n`.
- A JavaScript function that can `throw` is modelled as returning
  `JSResult α`: `.ok v` for a normal return, `.thrown msg` for an exception
  propagating to the caller.  Error messages are taken from the source where
  the source supplies them; platform `DOMException` names stand in for
  exceptions raised inside Web Crypto.
- Web Crypto availability (`checkSecureContext`, `window.crypto.subtle`) is a
  boolean parameter `hasWebCrypto` threaded to each operation.
- The Web Crypto primitives themselves (P-256 ECDH, AES-GCM, SHA-256) are not
  part of the repository; they are modelled abstractly but executably:
  ECDH as commutative modular multiplication over a fixed modulus (preserving
  determinism and the shared-secret agreement property), AES-GCM as a
  tag-check scheme (preserving the round-trip and authentication-failure
  behaviour), SHA-256 as an injective tagging function.  One-wayness and
  secrecy are not modelled; no claim below depends on them.
- `localStorage` (the slots `ecdhPrivateKey`, `ecdhPublicKey` and the JSON
  object under `aesKeys`) is the `LocalStore` structure, threaded explicitly.
  React component state (`setMemberKeys`, `setAesKey`) is UI cache and is not
  part of the session-key cache the spec talks about; it is dropped.
-/

/-- Byte buffers (decoded binary data). -/
abbrev Bytes := List Nat

/-- Result of a JavaScript call: a normal return or a thrown exception. -/
inductive JSResult (α : Type) where
  | ok : α → JSResult α
  | thrown : String → JSResult α
deriving DecidableEq, Repr

/-- True when the call ended in a thrown exception. -/
def JSResult.isThrown : JSResult α → Bool
  | .ok _ => false
  | .thrown _ => true

/-- Successful value, if any. -/
def JSResult.toOption : JSResult α → Option α
  | .ok v => some v
  | .thrown _ => none

/-- Sequencing that propagates thrown exceptions. -/
def JSResult.bind : JSResult α → (α → JSResult β) → JSResult β
  | .ok v, f => f v
  | .thrown e, _ => .thrown e

/-- Length of the padded base64 string encoding an `n`-byte buffer. -/
def b64Len (n : Nat) : Nat := 4 * ((n + 2) / 3)

/-! ### Abstract model of the Web Crypto primitives (platform, not repository code) -/

/-- Modulus of the abstract model of the fixed curve (P-256 in the source). -/
def curveP : Nat := 97

/-- Generator of the abstract curve model. -/
def curveG : Nat := 5

/-- SPKI wire form of the public key of scalar `a`: the abstract curve point
`curveG * a mod curveP`. -/
def encodePub (a : Nat) : Bytes := [curveG * a % curveP]

/-- PKCS8 wire form of the private key of scalar `a`. -/
def encodePriv (a : Nat) : Bytes := [a]

/-- `crypto.subtle.importKey("spki", ...)`: succeeds exactly on well-formed
curve points. -/
def importPub : Bytes → Option Nat
  | [x] => if x < curveP then some x else none
  | _ => none

/-- `crypto.subtle.importKey("pkcs8", ...)`: succeeds exactly on well-formed
private keys. -/
def importPriv : Bytes → Option Nat
  | [x] => some x
  | _ => none

/-- Key-derivation step applied to the ECDH shared secret: raw bytes of the
derived 256-bit AES key. Deterministic and injective in the secret. -/
def kdf (s : Nat) : Bytes := [s]

/-- Authentication tag of the AES-GCM model: 16 bytes determined by key, IV
and ciphertext body. -/
def gcmTag (key iv ct : Bytes) : Bytes :=
  ((key.sum + 2 * iv.sum + 3 * ct.sum + 5 * ct.length) % 251) :: List.replicate 15 0

/-- AES-GCM encryption model: body followed by the 16-byte tag (Web Crypto
appends the tag to the ciphertext). -/
def aesGcmEncrypt (key iv pt : Bytes) : Bytes := pt ++ gcmTag key iv pt

/-- AES-GCM decryption model: checks the trailing 16-byte tag; `none` models
the `OperationError` a failed authentication raises. -/
def aesGcmDecrypt (key iv data : Bytes) : Option Bytes :=
  if data.length < 16 then none
  else
    let ct := data.take (data.length - 16)
    let tag := data.drop (data.length - 16)
    if tag = gcmTag key iv ct then some ct else none

/-- SHA-256 model: injective digest of the input bytes (one-wayness is not
modelled; nothing below depends on it). -/
def sha256 (b : Bytes) : Bytes := 101 :: b

/-- The two fixed key slots plus the `aesKeys` JSON object of `localStorage`. -/
structure LocalStore where
  ecdhPrivateKey : Option Bytes
  ecdhPublicKey : Option Bytes
  aesKeys : List (String × Bytes)
deriving DecidableEq, Repr

/-! ### JSON-object operations backing the per-user AES key cache -/

/-- `all[userId] = keyB64` on a JSON object: replace the existing entry or
append a new one. -/
def setEntry : List (String × Bytes) → String → Bytes → List (String × Bytes)
  | [], u, k => [(u, k)]
  | e :: rest, u, k => if e.1 = u then (u, k) :: rest else e :: setEntry rest u k

/-- `all[userId]` read on a JSON object. -/
def getEntry : List (String × Bytes) → String → Option Bytes
  | [], _ => none
  | e :: rest, u => if e.1 = u then some e.2 else getEntry rest u

/-- `delete all[userId]` on a JSON object. -/
def delEntry (l : List (String × Bytes)) (u : String) : List (String × Bytes) :=
  l.filter fun e => e.1 != u

/-! ### Embedding of `src/lib/crypto.js` -/

/-- `generateECDHKeyPair` (crypto.js 46-75): throws without Web Crypto,
otherwise generates a fresh pair (`freshScalar` supplies the entropy), stores
both halves in `localStorage` and returns them. -/
def generateECDHKeyPair (hasWebCrypto : Bool) (freshScalar : Nat) (store : LocalStore) :
    JSResult (Bytes × Bytes) × LocalStore :=
  if hasWebCrypto = false then
    (.thrown "Web Crypto API not available", store)
  else
    let priv := encodePriv freshScalar
    let pub := encodePub freshScalar
    (.ok (priv, pub),
      { store with ecdhPrivateKey := some priv, ecdhPublicKey := some pub })

/-- `getLocalPublicKey` (crypto.js 126-128). -/
def getLocalPublicKey (store : LocalStore) : Option Bytes := store.ecdhPublicKey

/-- `loadLocalPrivateKey` (crypto.js 130-157 and ChatWindow 9-44): `none`
when the slot is empty, Web Crypto is unavailable, or the import fails. -/
def loadLocalPrivateKey (hasWebCrypto : Bool) (store : LocalStore) : Option Nat :=
  if hasWebCrypto then store.ecdhPrivateKey.bind importPriv else none

/-- `deriveSharedAESKey` (crypto.js 162-201): ECDH against the peer public
key followed by the fixed derivation step; returns the raw key bytes (the
source returns the imported `aesKey` together with `rawKeyBase64`; both
denote the same key bytes here). -/
def deriveSharedAESKey (hasWebCrypto : Bool) (myPriv : Option Nat)
    (peerPubB64 : Option Bytes) : JSResult Bytes :=
  if hasWebCrypto = false then
    .thrown "Web Crypto API not available - cannot derive AES key"
  else
    match peerPubB64, myPriv with
    | none, _ => .thrown "Missing required parameters for key derivation"
    | _, none => .thrown "Missing required parameters for key derivation"
    | some pb, some a =>
      match importPub pb with
      | none => .thrown "DataError"
      | some q => .ok (kdf (q * a % curveP))

/-- `saveAesKeyForUser` (crypto.js 206-210). -/
def saveAesKeyForUser (userId : String) (keyB64 : Bytes) (store : LocalStore) : LocalStore :=
  { store with aesKeys := setEntry store.aesKeys userId keyB64 }

/-- `loadAesKeyForUser` (crypto.js 212-215). -/
def loadAesKeyForUser (userId : String) (store : LocalStore) : Option Bytes :=
  getEntry store.aesKeys userId

/-- `clearAesKeyForUser` (crypto.js 217-222). -/
def clearAesKeyForUser (userId : String) (store : LocalStore) : LocalStore :=
  { store with aesKeys := delEntry store.aesKeys userId }

/-- `importAesKeyFromRawBase64` (crypto.js 327-344): throws without Web
Crypto; raw import of key bytes otherwise. -/
def importAesKeyFromRawBase64 (hasWebCrypto : Bool) (b64 : Bytes) : JSResult Bytes :=
  if hasWebCrypto = false then
    .thrown "Web Crypto API not available for key import"
  else
    .ok b64

/-- `encryptWithAesKey` (crypto.js 349-378): the 12-byte random IV is the
`iv` parameter; output is `iv ++ cipher` (base64 of the combined buffer).
Note the `!aesKey || !plaintext` guard: the empty plaintext throws. -/
def encryptWithAesKey (hasWebCrypto : Bool) (aesKey : Option Bytes)
    (plaintext : Bytes) (iv : Bytes) : JSResult Bytes :=
  if hasWebCrypto = false then
    .thrown "Web Crypto API not available for encryption"
  else
    match aesKey with
    | none => .thrown "Missing AES key or plaintext for encryption"
    | some k =>
      if plaintext = [] then .thrown "Missing AES key or plaintext for encryption"
      else .ok (iv ++ aesGcmEncrypt k iv plaintext)

/-- `decryptWithAesKey` (crypto.js 380-413): splits the first 12 bytes as IV,
then AES-GCM decrypts the rest; every failure is a thrown exception. -/
def decryptWithAesKey (hasWebCrypto : Bool) (aesKey : Option Bytes)
    (b64Ciphertext : Bytes) : JSResult Bytes :=
  if hasWebCrypto = false then
    .thrown "Web Crypto API not available for decryption"
  else
    match aesKey with
    | none => .thrown "Missing AES key or ciphertext for decryption"
    | some k =>
      if b64Ciphertext = [] then .thrown "Missing AES key or ciphertext for decryption"
      else if b64Ciphertext.length < 12 then .thrown "Ciphertext too short (missing IV)"
      else
        let iv := b64Ciphertext.take 12
        let ct := b64Ciphertext.drop 12
        if ct = [] then .thrown "Ciphertext is empty after removing IV"
        else
          match aesGcmDecrypt k iv ct with
          | some pt => .ok pt
          | none => .thrown "OperationError"

/-- `decryptGroupKey` (crypto.js 273-305): unwrap of the caller's wrapped
group-key blob using SHA-256 of the local public key; the blob is a 16-byte
IV followed by the AEAD output. -/
def decryptGroupKey (hasWebCrypto : Bool) (store : LocalStore)
    (encryptedKeyB64 : Bytes) : JSResult Bytes :=
  match getLocalPublicKey store with
  | none => .thrown "No public key available for group key decryption"
  | some pub =>
    if hasWebCrypto = false then .thrown "TypeError"
    else
      match aesGcmDecrypt (sha256 pub) (encryptedKeyB64.take 16)
          (encryptedKeyB64.drop 16) with
      | some gk => .ok gk
      | none => .thrown "OperationError"

/-- Modelled from the spec: the backend `encryptGroupKeyForMember` /
`wrapForMember` (not in src) wraps the group key for one member with a key
deterministically derived (one-way hash) from that member's own public key;
the blob layout (16-byte IV followed by AEAD output) is the one
`decryptGroupKey` documents and parses. -/
def encryptGroupKeyForMember (groupKey memberPub iv : Bytes) : Bytes :=
  iv ++ aesGcmEncrypt (sha256 memberPub) iv groupKey

/-! ### Basic lemmas about the primitives -/

theorem getEntry_setEntry_self (l : List (String × Bytes)) (u : String) (k : Bytes) :
    getEntry (setEntry l u k) u = some k := by
  induction l with
  | nil => simp [setEntry, getEntry]
  | cons e rest ih =>
    by_cases h : e.1 = u
    · simp [setEntry, getEntry, h]
    · simp [setEntry, getEntry, h, ih]

theorem getEntry_setEntry_ne (l : List (String × Bytes)) (u v : String) (k : Bytes)
    (huv : u ≠ v) : getEntry (setEntry l u k) v = getEntry l v := by
  induction l with
  | nil => simp [setEntry, getEntry, huv]
  | cons e rest ih =>
    by_cases h : e.1 = u
    · simp only [setEntry, h, if_pos]
      simp [getEntry, huv, h]
    · simp only [setEntry, h, if_neg, ne_eq, not_false_iff]
      by_cases h2 : e.1 = v
      · simp [getEntry, h2]
      · simp [getEntry, h2, ih]

theorem getEntry_delEntry_self (l : List (String × Bytes)) (u : String) :
    getEntry (delEntry l u) u = none := by
  induction l with
  | nil => simp [delEntry, getEntry]
  | cons e rest ih =>
    by_cases h : e.1 = u
    · simpa [delEntry, List.filter_cons, h] using ih
    · simpa [delEntry, List.filter_cons, getEntry, h] using ih

theorem getEntry_delEntry_ne (l : List (String × Bytes)) (u v : String)
    (huv : u ≠ v) : getEntry (delEntry l u) v = getEntry l v := by
  induction l with
  | nil => simp [delEntry, getEntry]
  | cons e rest ih =>
    by_cases h : e.1 = u
    · simp [delEntry, List.filter_cons, getEntry, h, huv, ih]
      simpa [delEntry] using ih
    · by_cases h2 : e.1 = v
      · simp [delEntry, List.filter_cons, getEntry, h, h2, Ne.symm huv]
      · simp [delEntry, List.filter_cons, getEntry, h, h2]
        simpa [delEntry] using ih

/-- Length of the GCM tag model. -/
theorem gcmTag_length (key iv ct : Bytes) : (gcmTag key iv ct).length = 16 := by
  simp [gcmTag]

/-- Round trip of the AES-GCM model. -/
theorem aesGcmDecrypt_encrypt (key iv pt : Bytes) :
    aesGcmDecrypt key iv (aesGcmEncrypt key iv pt) = some pt := by
  have hlen : (pt ++ gcmTag key iv pt).length = pt.length + 16 := by
    simp [gcmTag_length]
  simp only [aesGcmDecrypt, aesGcmEncrypt]
  rw [hlen]
  rw [if_neg (by omega : ¬ pt.length + 16 < 16)]
  rw [Nat.add_sub_cancel, List.take_left, List.drop_left]
  simp

/-- ECDH agreement in the curve model: both parties derive the same key. -/
theorem deriveSharedAESKey_comm (a b : Nat) :
    deriveSharedAESKey true (some a) (some (encodePub b)) =
      deriveSharedAESKey true (some b) (some (encodePub a)) := by
  have hb : curveG * b % curveP < curveP := Nat.mod_lt _ (by decide)
  have ha : curveG * a % curveP < curveP := Nat.mod_lt _ (by decide)
  simp only [deriveSharedAESKey, encodePub, importPub, if_pos hb, if_pos ha]
  have h1 : curveG * b % curveP * a % curveP = curveG * a % curveP * b % curveP := by
    conv_lhs => rw [Nat.mod_mul_mod]
    conv_rhs => rw [Nat.mod_mul_mod]
    ring_nf
  simp [h1]

/-! ### Decryption resolvers

`resolveGroupMessage` embeds the GroupChatWindow history decryption chain
(GroupChatWindow.jsx, fuller version: unencrypted/short passthrough with the
file-message branch, strategy 0 group key, strategy 1 cached key, strategy 2
key derived from `meta.senderPublicKey`, strategy 3 key fetched from the
directory, final `[Decryption Error]` placeholder).  The slimmer
GroupChatWindow version is the same chain without strategy 0 and without the
file branches.

`resolveChatHistoryMessage` embeds the older ChatWindow.jsx history
decryption (meta-first ordering), and `chatIncomingHandler` its incoming
socket handler. -/

/-- Rendered plaintext: real bytes recovered from the wire, or a literal
placeholder / file-label string produced by the component. -/
inductive Plain where
  | bytes : Bytes → Plain
  | marker : String → Plain
deriving DecidableEq, Repr

/-- Inbound group message as the resolver sees it. -/
structure GroupMsg where
  senderId : Option String
  ciphertext : Bytes
  metaUnencrypted : Bool
  metaSenderPublicKey : Option Bytes
  isFile : Bool
  fileIsImage : Bool
  fileName : String
deriving DecidableEq, Repr

/-- Ambient state of the GroupChatWindow resolver: platform flag, own
identity and private key, the unwrapped group key (strategy 0) and the
directory lookup (`GET /api/users/:id` returning `ecdhPublicKey`). -/
structure GroupEnv where
  hasWebCrypto : Bool
  myUserId : String
  myPriv : Option Nat
  groupKey : Option Bytes
  directory : String → Option Bytes

/-- Resolver outcome: the rendered plaintext, whether a key derivation from
`meta.senderPublicKey` was attempted, and how many AEAD decrypt calls ran. -/
structure GroupResolved where
  plain : Plain
  metaDeriveAttempted : Bool
  attempts : Nat
deriving DecidableEq, Repr

/-- Passthrough rendering of an unencrypted / too-short message: raw
ciphertext as text, or the file label for file messages. -/
def passThruPlain (m : GroupMsg) : Plain :=
  if m.isFile then
    .marker (if m.fileIsImage then "🖼️ Image" else "📎 " ++ m.fileName)
  else .bytes m.ciphertext

/-- One cached-key attempt (import then decrypt, both inside one try):
recovered plaintext if the whole block succeeded, plus the number of decrypt
calls it made. -/
def tryCachedKey (hasWebCrypto : Bool) (kb ct : Bytes) : Option Bytes × Nat :=
  match importAesKeyFromRawBase64 hasWebCrypto kb with
  | .thrown _ => (none, 0)
  | .ok k =>
    match decryptWithAesKey hasWebCrypto (some k) ct with
    | .ok pt => (some pt, 1)
    | .thrown _ => (none, 1)

/-- One derive-then-decrypt attempt against a peer public key (both inside
one try): derived key and plaintext on success, plus decrypt-call count. -/
def tryDerivedKey (hasWebCrypto : Bool) (priv : Option Nat) (pb ct : Bytes) :
    Option (Bytes × Bytes) × Nat :=
  match deriveSharedAESKey hasWebCrypto priv (some pb) with
  | .thrown _ => (none, 0)
  | .ok k =>
    match decryptWithAesKey hasWebCrypto (some k) ct with
    | .ok pt => (some (k, pt), 1)
    | .thrown _ => (none, 1)

/-- Strategy 1 of the group resolver: cached AES key for the sender. -/
def strat1 (env : GroupEnv) (store : LocalStore) (m : GroupMsg) : Option Bytes × Nat :=
  match m.senderId with
  | none => (none, 0)
  | some s =>
    match getEntry store.aesKeys s with
    | none => (none, 0)
    | some kb => tryCachedKey env.hasWebCrypto kb m.ciphertext

/-- `if (senderId) cryptoLib.saveAesKeyForUser(senderId, rawKeyBase64)`. -/
def saveAesKeyOpt (sid : Option String) (k : Bytes) (store : LocalStore) : LocalStore :=
  match sid with
  | some s => saveAesKeyForUser s k store
  | none => store

/-- Strategy 3 of the group resolver: fetch the sender's current public key
from the directory, derive, decrypt and cache; otherwise the terminal
`[Decryption Error]` placeholder. -/
def resolveGroupFetch (env : GroupEnv) (store : LocalStore) (m : GroupMsg)
    (priv : Nat) (metaFlag : Bool) (acc : Nat) : GroupResolved × LocalStore :=
  match m.senderId with
  | some s =>
    if s = env.myUserId then (⟨.marker "[Decryption Error]", metaFlag, acc⟩, store)
    else
      match env.directory s with
      | some pubS =>
        match tryDerivedKey env.hasWebCrypto (some priv) pubS m.ciphertext with
        | (some kpt, n) =>
          (⟨.bytes kpt.2, metaFlag, acc + n⟩, saveAesKeyForUser s kpt.1 store)
        | (none, n) => (⟨.marker "[Decryption Error]", metaFlag, acc + n⟩, store)
      | none => (⟨.marker "[Decryption Error]", metaFlag, acc⟩, store)
  | none => (⟨.marker "[Decryption Error]", metaFlag, acc⟩, store)

/-- Strategies 1-3 of the group resolver (run after the passthrough checks
and the group-key attempt, once a local private key is known to exist). -/
def resolveGroupStrategies (env : GroupEnv) (store : LocalStore) (m : GroupMsg)
    (a0 : Nat) : GroupResolved × LocalStore :=
  match env.myPriv with
  | none => (⟨.marker "[Encrypted - no key]", false, a0⟩, store)
  | some priv =>
    match strat1 env store m with
    | (some pt, n1) => (⟨.bytes pt, false, a0 + n1⟩, store)
    | (none, n1) =>
      match m.metaSenderPublicKey with
      | some pb =>
        match tryDerivedKey env.hasWebCrypto (some priv) pb m.ciphertext with
        | (some kpt, n2) =>
          (⟨.bytes kpt.2, true, a0 + n1 + n2⟩, saveAesKeyOpt m.senderId kpt.1 store)
        | (none, n2) => resolveGroupFetch env store m priv true (a0 + n1 + n2)
      | none => resolveGroupFetch env store m priv false (a0 + n1)

/-- GroupChatWindow history decryption resolver. -/
def resolveGroupMessage (env : GroupEnv) (store : LocalStore) (m : GroupMsg) :
    GroupResolved × LocalStore :=
  if m.ciphertext = [] then (⟨.marker "[No ciphertext]", false, 0⟩, store)
  else if m.metaUnencrypted = true then (⟨passThruPlain m, false, 0⟩, store)
  else if b64Len m.ciphertext.length < 29 then (⟨passThruPlain m, false, 0⟩, store)
  else
    match env.groupKey with
    | some gk =>
      match decryptWithAesKey env.hasWebCrypto (some gk) m.ciphertext with
      | .ok pt => (⟨.bytes pt, false, 1⟩, store)
      | .thrown _ => resolveGroupStrategies env store m 1
    | none => resolveGroupStrategies env store m 0

/-- Inbound direct-chat message as the older ChatWindow resolver sees it. -/
structure ChatMsg where
  senderId : Option String
  ciphertext : Bytes
  metaSenderPublicKey : Option Bytes
deriving DecidableEq, Repr

/-- Ambient state of the ChatWindow resolver: `importedKey` is the session
key derived at chat load from the peer's current public key (the `aesKey`
React state used by the incoming handler). -/
structure ChatEnv where
  hasWebCrypto : Bool
  myUserId : String
  myPriv : Option Nat
  importedKey : Bytes
  directory : String → Option Bytes

/-- Outcome of the ChatWindow history resolver. -/
structure ChatResolved where
  plain : Plain
  metaDeriveAttempted : Bool
deriving DecidableEq, Repr

/-- `String(m.senderId)` used as a `localStorage` object key: the literal
string "undefined" when the field is absent. -/
def senderKeyStr (sid : Option String) : String :=
  match sid with
  | some s => s
  | none => "undefined"

/-- Last-resort phase of the ChatWindow history resolver: fetch the sender's
current public key from the directory and retry; otherwise the terminal
`[Decryption Error]` placeholder. -/
def chatFetchPhase (env : ChatEnv) (store : LocalStore) (m : ChatMsg)
    (metaFlag : Bool) : ChatResolved × LocalStore :=
  match m.senderId with
  | some s =>
    if s = env.myUserId then (⟨.marker "[Decryption Error]", metaFlag⟩, store)
    else
      match env.directory s with
      | some pubS =>
        match (tryDerivedKey env.hasWebCrypto env.myPriv pubS m.ciphertext).1 with
        | some (k, pt) => (⟨.bytes pt, metaFlag⟩, saveAesKeyForUser s k store)
        | none => (⟨.marker "[Decryption Error]", metaFlag⟩, store)
      | none => (⟨.marker "[Decryption Error]", metaFlag⟩, store)
  | none => (⟨.marker "[Decryption Error]", metaFlag⟩, store)

/-- Older ChatWindow.jsx history decryption: for messages from others with
`meta.senderPublicKey`, the resolver derives from the meta key FIRST and only
falls back to the session key (`importedKey`) when that derivation throws;
on a failed decrypt it retries with the meta key (if not already used) and
finally fetches the sender's current key from the directory. -/
def resolveChatHistoryMessage (env : ChatEnv) (store : LocalStore) (m : ChatMsg) :
    ChatResolved × LocalStore :=
  if m.ciphertext = [] then (⟨.marker "[No ciphertext]", false⟩, store)
  else if m.senderId = some env.myUserId then
    -- own message: no initial meta derivation
    match decryptWithAesKey env.hasWebCrypto (some env.importedKey) m.ciphertext with
    | .ok pt => (⟨.bytes pt, false⟩, store)
    | .thrown _ =>
      match m.metaSenderPublicKey with
      | some pb =>
        -- retry block: derive from meta, decrypt, cache on success
        match (tryDerivedKey env.hasWebCrypto env.myPriv pb m.ciphertext).1 with
        | some (k, pt) =>
          (⟨.bytes pt, true⟩, saveAesKeyForUser (senderKeyStr m.senderId) k store)
        | none => chatFetchPhase env store m true
      | none => chatFetchPhase env store m false
  else
    match m.metaSenderPublicKey with
    | some pb =>
      -- message from another user with a meta key: derive from meta first
      match deriveSharedAESKey env.hasWebCrypto env.myPriv (some pb) with
      | .ok k =>
        match decryptWithAesKey env.hasWebCrypto (some k) m.ciphertext with
        | .ok pt =>
          -- success with the meta-derived key: re-derive and cache it
          (⟨.bytes pt, true⟩, saveAesKeyForUser (senderKeyStr m.senderId) k store)
        | .thrown _ => chatFetchPhase env store m true
      | .thrown _ =>
        -- meta derivation failed: decrypt with the session key instead
        match decryptWithAesKey env.hasWebCrypto (some env.importedKey) m.ciphertext with
        | .ok pt => (⟨.bytes pt, true⟩, store)
        | .thrown _ =>
          -- retry block: the same meta derivation throws again
          match (tryDerivedKey env.hasWebCrypto env.myPriv pb m.ciphertext).1 with
          | some (k, pt) =>
            (⟨.bytes pt, true⟩, saveAesKeyForUser (senderKeyStr m.senderId) k store)
          | none => chatFetchPhase env store m true
    | none =>
      match decryptWithAesKey env.hasWebCrypto (some env.importedKey) m.ciphertext with
      | .ok pt => (⟨.bytes pt, false⟩, store)
      | .thrown _ => chatFetchPhase env store m false

/-- Older ChatWindow.jsx incoming socket handler: messages with a missing
sender or empty ciphertext are dropped (`none`) before any strategy runs;
otherwise decrypt with the current session key, then the meta key, then a
directory fetch, rendering a placeholder when everything fails. -/
def chatIncomingHandler (env : ChatEnv) (store : LocalStore) (m : ChatMsg) :
    Option Plain × LocalStore :=
  if m.senderId = none ∨ m.ciphertext = [] then (none, store)
  else
    match decryptWithAesKey env.hasWebCrypto (some env.importedKey) m.ciphertext with
    | .ok pt => (some (.bytes pt), store)
    | .thrown _ =>
      match m.metaSenderPublicKey with
      | some pb =>
        match loadLocalPrivateKey env.hasWebCrypto store with
        | none => (some (.marker "[Decryption Error - No Key]"), store)
        | some priv =>
          match (tryDerivedKey env.hasWebCrypto (some priv) pb m.ciphertext).1 with
          | some (k, pt) =>
            (some (.bytes pt), saveAesKeyForUser (senderKeyStr m.senderId) k store)
          | none => (some (.marker "[Decryption Error]"), store)
      | none =>
        match m.senderId with
        | some s =>
          match env.directory s with
          | some pubS =>
            match loadLocalPrivateKey env.hasWebCrypto store with
            | none => (some (.marker "[Decryption Error - No Key]"), store)
            | some priv =>
              match (tryDerivedKey env.hasWebCrypto (some priv) pubS m.ciphertext).1 with
              | some (k, pt) => (some (.bytes pt), saveAesKeyForUser s k store)
              | none => (some (.marker "[Decryption Error]"), store)
          | none => (some (.marker "[Decryption Error - No Sender Key]"), store)
        | none => (some (.marker "[Decryption Error]"), store)

/-! ### Login and group-send flows (Login.jsx and GroupChatWindow send) -/

/-- Outcome of the post-login key-provisioning block (Login.jsx 93-163). -/
structure LoginOutcome where
  keyGenAttempted : Bool
  clearedServerPub : Bool
  keysReady : Bool
  store : LocalStore
deriving DecidableEq, Repr

/-- Client-side generation branch of the login flow. -/
def loginGenerate (freshScalar : Nat) (store : LocalStore) : LoginOutcome :=
  match generateECDHKeyPair true freshScalar store with
  | (_, store1) => ⟨true, false, true, store1⟩

/-- Login key-provisioning flow (Login.jsx 93-163): with Web Crypto, adopt a
valid server-held private key or generate a fresh client-side pair; without
Web Crypto, attempt no generation and clear the server-side public key. -/
def loginFlow (hasWebCrypto : Bool) (serverPriv : Option Bytes)
    (serverUserPub : Option Bytes) (freshScalar : Nat) (store : LocalStore) :
    LoginOutcome :=
  if hasWebCrypto then
    match serverPriv with
    | some spb =>
      match importPriv spb with
      | some _ =>
        ⟨false, false, true,
          { store with
            ecdhPrivateKey := some spb,
            ecdhPublicKey :=
              match serverUserPub with
              | some up => some up
              | none => store.ecdhPublicKey }⟩
      | none => loginGenerate freshScalar store
    | none => loginGenerate freshScalar store
  else ⟨false, true, true, store⟩

/-- Payload emitted on the socket by the group send flow. -/
structure GroupPayload where
  ciphertext : Bytes
  unencrypted : Bool
  senderPublicKey : Option Bytes
deriving DecidableEq, Repr

/-- Outcome of the group send flow. -/
structure SendOutcome where
  localKeyGenAttempted : Bool
  backendKeyGenAttempted : Bool
  sent : Option GroupPayload
  store : LocalStore
deriving DecidableEq, Repr

/-- Encryption half of the group send flow (GroupChatWindow send, lines
1172-1217): encrypt with the cached group key when possible, otherwise send
the plaintext flagged `unencrypted`. -/
def groupSendEncrypt (hasWebCrypto : Bool) (text : Bytes) (store : LocalStore)
    (cachedGroupKey : Option Bytes) (iv : Bytes) (localGen backendGen : Bool) :
    SendOutcome :=
  match cachedGroupKey with
  | some gk =>
    match encryptWithAesKey hasWebCrypto (some gk) text iv with
    | .ok c => ⟨localGen, backendGen, some ⟨c, false, store.ecdhPublicKey⟩, store⟩
    | .thrown _ =>
      ⟨localGen, backendGen, some ⟨text, true, store.ecdhPublicKey⟩, store⟩
  | none => ⟨localGen, backendGen, some ⟨text, true, store.ecdhPublicKey⟩, store⟩

/-- Group send flow (GroupChatWindow send, lines 1115-1226): when local keys
are missing it generates them via Web Crypto, or, without Web Crypto, falls
back to BACKEND key generation (`POST /api/auth/generateKeys`, the
`backendKeys` parameter standing for its response); the send is aborted when
that also fails. -/
def groupSendFlow (hasWebCrypto : Bool) (text : Bytes) (store : LocalStore)
    (backendKeys : Option (Bytes × Bytes)) (freshScalar : Nat)
    (cachedGroupKey : Option Bytes) (iv : Bytes) : SendOutcome :=
  if text = [] then ⟨false, false, none, store⟩
  else
    if (getLocalPublicKey store).isNone ∨ (loadLocalPrivateKey hasWebCrypto store).isNone then
      if hasWebCrypto then
        match generateECDHKeyPair hasWebCrypto freshScalar store with
        | (_, store1) => groupSendEncrypt hasWebCrypto text store1 cachedGroupKey iv true false
      else
        match backendKeys with
        | some pk =>
          groupSendEncrypt hasWebCrypto text
            { store with ecdhPrivateKey := some pk.2, ecdhPublicKey := some pk.1 }
            cachedGroupKey iv false true
        | none => ⟨false, true, none, store⟩
    else groupSendEncrypt hasWebCrypto text store cachedGroupKey iv false false

/-! ### Shared helper lemmas -/

/-- Decrypting an `encryptWithAesKey` envelope with the same key recovers
the plaintext. -/
theorem decryptWithAesKey_encrypt (k iv pt : Bytes) (hiv : iv.length = 12) :
    decryptWithAesKey true (some k) (iv ++ aesGcmEncrypt k iv pt) = .ok pt := by
  have hetag : (aesGcmEncrypt k iv pt).length = pt.length + 16 := by
    simp [aesGcmEncrypt, gcmTag_length]
  have hlen : (iv ++ aesGcmEncrypt k iv pt).length = 12 + (pt.length + 16) := by
    simp [hiv, hetag]
  have hne : (iv ++ aesGcmEncrypt k iv pt) ≠ [] := by
    intro hc
    rw [hc] at hlen
    simp only [List.length_nil] at hlen
    omega
  have htake : (iv ++ aesGcmEncrypt k iv pt).take 12 = iv := by
    rw [← hiv]
    exact List.take_left iv _
  have hdrop : (iv ++ aesGcmEncrypt k iv pt).drop 12 = aesGcmEncrypt k iv pt := by
    rw [← hiv]
    exact List.drop_left iv _
  have hEne : aesGcmEncrypt k iv pt ≠ [] := by
    intro hc
    rw [hc] at hetag
    simp at hetag
  simp only [decryptWithAesKey, if_neg (by simp : ¬ (true = false)), if_neg hne]
  rw [if_neg (by rw [hlen]; omega : ¬ (iv ++ aesGcmEncrypt k iv pt).length < 12),
    hdrop, htake, if_neg hEne, aesGcmDecrypt_encrypt]

/-! ### C1: ECDH round trip through encrypt and decrypt -/

/-- The composite of the claim: derive the sender-side key, encrypt, derive
the receiver-side key, decrypt. -/
def c1chain (a b : Nat) (iv P : Bytes) : JSResult Bytes :=
  (deriveSharedAESKey true (some a) (some (encodePub b))).bind fun k1 =>
  (encryptWithAesKey true (some k1) P iv).bind fun _c =>
  (deriveSharedAESKey true (some b) (some (encodePub a))).bind fun k2 =>
  decryptWithAesKey true (some k2) _c

/-- C1 (amended): for every two keypairs on the fixed curve, every 12-byte
IV and every NON-EMPTY plaintext, decrypting with the key derived from
(b, pubA) the output of encrypting with the key derived from (a, pubB)
returns the plaintext.  (The empty plaintext instead trips the
`!aesKey || !plaintext` guard of `encryptWithAesKey` and throws.) -/
theorem encrypt_decrypt_roundtrip (a b : Nat) (iv P : Bytes)
    (hiv : iv.length = 12) (hP : P ≠ []) : c1chain a b iv P = .ok P := by
  have hb : curveG * b % curveP < curveP := Nat.mod_lt _ (by decide)
  have hd1 : deriveSharedAESKey true (some a) (some (encodePub b)) =
      .ok (kdf (curveG * b % curveP * a % curveP)) := by
    simp [deriveSharedAESKey, encodePub, importPub, hb]
  have hd2 : deriveSharedAESKey true (some b) (some (encodePub a)) =
      .ok (kdf (curveG * b % curveP * a % curveP)) := by
    rw [← deriveSharedAESKey_comm, hd1]
  have henc : encryptWithAesKey true (some (kdf (curveG * b % curveP * a % curveP))) P iv =
      .ok (iv ++ aesGcmEncrypt (kdf (curveG * b % curveP * a % curveP)) iv P) := by
    simp [encryptWithAesKey, hP]
  unfold c1chain
  rw [hd1]
  simp only [JSResult.bind]
  rw [henc]
  simp only [JSResult.bind]
  rw [hd2]
  simp only [JSResult.bind]
  exact decryptWithAesKey_encrypt _ iv P hiv

/-- C1 counterexample: at the empty plaintext the round trip does not return
the plaintext — `encryptWithAesKey` throws on the falsy empty string — so the
claim quantified over EVERY plaintext string fails. -/
theorem roundtrip_fails_on_empty_plaintext :
    c1chain 2 3 (List.replicate 12 0) [] ≠ .ok []
    ∧ c1chain 2 3 (List.replicate 12 0) [] =
        .thrown "Missing AES key or plaintext for encryption" := by
  constructor
  · decide
  · decide

/-- Witness for C1 at concrete keypairs, IV and plaintext. -/
theorem encrypt_decrypt_roundtrip_witness :
    (List.replicate 12 0 : Bytes).length = 12 ∧ ([104] : Bytes) ≠ []
    ∧ c1chain 2 3 (List.replicate 12 0) [104] = .ok [104] :=
  ⟨by decide, by decide,
    encrypt_decrypt_roundtrip 2 3 (List.replicate 12 0) [104] (by decide) (by decide)⟩

/-! ### C10: per-user framing of the AES key cache -/

/-- C10: `saveAesKeyForUser u k` leaves every other user's entry unchanged
and makes `loadAesKeyForUser u` return `k`; `clearAesKeyForUser u` removes
exactly the entry of `u`. -/
theorem aesKeyCache_per_user_frame (s : LocalStore) (u v : String) (k : Bytes)
    (huv : u ≠ v) :
    loadAesKeyForUser v (saveAesKeyForUser u k s) = loadAesKeyForUser v s
    ∧ loadAesKeyForUser u (saveAesKeyForUser u k s) = some k
    ∧ loadAesKeyForUser u (clearAesKeyForUser u s) = none
    ∧ loadAesKeyForUser v (clearAesKeyForUser u s) = loadAesKeyForUser v s := by
  refine ⟨?_, ?_, ?_, ?_⟩
  · simpa [loadAesKeyForUser, saveAesKeyForUser] using
      getEntry_setEntry_ne s.aesKeys u v k huv
  · simpa [loadAesKeyForUser, saveAesKeyForUser] using
      getEntry_setEntry_self s.aesKeys u k
  · simpa [loadAesKeyForUser, clearAesKeyForUser] using
      getEntry_delEntry_self s.aesKeys u
  · simpa [loadAesKeyForUser, clearAesKeyForUser] using
      getEntry_delEntry_ne s.aesKeys u v huv

/-- Witness for C10 at two concrete distinct users. -/
theorem aesKeyCache_per_user_frame_witness :
    ("u1" : String) ≠ "u2"
    ∧ (loadAesKeyForUser "u2" (saveAesKeyForUser "u1" [5] ⟨none, none, [("u2", [9])]⟩) =
        loadAesKeyForUser "u2" ⟨none, none, [("u2", [9])]⟩
      ∧ loadAesKeyForUser "u1" (saveAesKeyForUser "u1" [5] ⟨none, none, [("u2", [9])]⟩) =
          some [5]
      ∧ loadAesKeyForUser "u1" (clearAesKeyForUser "u1" ⟨none, none, [("u2", [9])]⟩) = none
      ∧ loadAesKeyForUser "u2" (clearAesKeyForUser "u1" ⟨none, none, [("u2", [9])]⟩) =
          loadAesKeyForUser "u2" ⟨none, none, [("u2", [9])]⟩) :=
  ⟨by decide, aesKeyCache_per_user_frame ⟨none, none, [("u2", [9])]⟩ "u1" "u2" [5] (by decide)⟩

/-! ### C8: failure signalling of the crypto core -/

/-- C8 (amended): the crypto core signals failure by THROWING: whenever Web
Crypto is unavailable or a required input is missing, each public operation
(key generation, key derivation, encrypt, decrypt, key import, group-key
unwrap) throws an Error that propagates across its public boundary instead
of returning a typed failure value. -/
theorem crypto_ops_throw_on_failure (fs : Nat) (store store2 : LocalStore)
    (k : Option Bytes) (pt ct iv kb blob : Bytes) (priv : Option Nat)
    (pb : Option Bytes) (hpub : store2.ecdhPublicKey = none) :
    (generateECDHKeyPair false fs store).1.isThrown = true
    ∧ (deriveSharedAESKey false priv pb).isThrown = true
    ∧ (deriveSharedAESKey true priv none).isThrown = true
    ∧ (encryptWithAesKey false k pt iv).isThrown = true
    ∧ (decryptWithAesKey false k ct).isThrown = true
    ∧ (importAesKeyFromRawBase64 false kb).isThrown = true
    ∧ (decryptGroupKey true store2 blob).isThrown = true := by
  refine ⟨rfl, rfl, ?_, rfl, rfl, rfl, ?_⟩
  · cases priv <;> rfl
  · simp [decryptGroupKey, getLocalPublicKey, hpub, JSResult.isThrown]

/-- C8 counterexample: `generateECDHKeyPair` throws a raw Error across its
public boundary when Web Crypto is unavailable, contradicting the claim that
no public operation ever throws. -/
theorem generateECDHKeyPair_throws_across_boundary :
    (generateECDHKeyPair false 1 ⟨none, none, []⟩).1 =
      .thrown "Web Crypto API not available" := rfl

/-- Witness for C8 at concrete inputs. -/
theorem crypto_ops_throw_on_failure_witness :
    (⟨none, none, []⟩ : LocalStore).ecdhPublicKey = none
    ∧ ((generateECDHKeyPair false 1 ⟨none, none, []⟩).1.isThrown = true
      ∧ (deriveSharedAESKey false (some 1) (some [2])).isThrown = true
      ∧ (deriveSharedAESKey true (some 1) none).isThrown = true
      ∧ (encryptWithAesKey false (some [3]) [4] [5]).isThrown = true
      ∧ (decryptWithAesKey false (some [3]) [6]).isThrown = true
      ∧ (importAesKeyFromRawBase64 false [7]).isThrown = true
      ∧ (decryptGroupKey true ⟨none, none, []⟩ [8]).isThrown = true) :=
  ⟨rfl, crypto_ops_throw_on_failure 1 ⟨none, none, []⟩ ⟨none, none, []⟩
    (some [3]) [4] [6] [5] [7] [8] (some 1) (some [2]) rfl⟩

/-! ### C9: group-key unwrap -/

/-- C9: `decryptGroupKey` derives its decryption key as the SHA-256 digest
of the member's own public key bytes, parses the blob as a 16-byte IV
followed by the AEAD output, returns the group key when the blob
authenticates, and fails (typed unwrap error) when no local public key
exists or the blob does not authenticate. -/
theorem unwrap_group_key_correct (s1 s2 : LocalStore) (pub gk iv blob : Bytes)
    (h1 : s1.ecdhPublicKey = some pub) (h2 : iv.length = 16)
    (h3 : s2.ecdhPublicKey = none)
    (h4 : aesGcmDecrypt (sha256 pub) (blob.take 16) (blob.drop 16) = none) :
    decryptGroupKey true s1 (encryptGroupKeyForMember gk pub iv) = .ok gk
    ∧ decryptGroupKey true s1 blob = .thrown "OperationError"
    ∧ decryptGroupKey true s2 blob =
        .thrown "No public key available for group key decryption" := by
  refine ⟨?_, ?_, ?_⟩
  · have htake : (encryptGroupKeyForMember gk pub iv).take 16 = iv := by
      rw [encryptGroupKeyForMember, ← h2]
      exact List.take_left iv _
    have hdrop : (encryptGroupKeyForMember gk pub iv).drop 16 =
        aesGcmEncrypt (sha256 pub) iv gk := by
      rw [encryptGroupKeyForMember, ← h2]
      exact List.drop_left iv _
    simp [decryptGroupKey, getLocalPublicKey, h1, htake, hdrop, aesGcmDecrypt_encrypt]
  · simp [decryptGroupKey, getLocalPublicKey, h1, h4]
  · simp [decryptGroupKey, getLocalPublicKey, h3]

/-- Witness for C9 at a concrete wrapped blob and a concrete bad blob. -/
theorem unwrap_group_key_correct_witness :
    (⟨none, some [7], []⟩ : LocalStore).ecdhPublicKey = some [7]
    ∧ (List.replicate 16 0 : Bytes).length = 16
    ∧ (⟨none, none, []⟩ : LocalStore).ecdhPublicKey = none
    ∧ aesGcmDecrypt (sha256 [7]) (([] : Bytes).take 16) (([] : Bytes).drop 16) = none
    ∧ (decryptGroupKey true ⟨none, some [7], []⟩
          (encryptGroupKeyForMember [1, 2] [7] (List.replicate 16 0)) = .ok [1, 2]
      ∧ decryptGroupKey true ⟨none, some [7], []⟩ [] = .thrown "OperationError"
      ∧ decryptGroupKey true ⟨none, none, []⟩ [] =
          .thrown "No public key available for group key decryption") :=
  ⟨rfl, by decide, rfl, by decide,
    unwrap_group_key_correct ⟨none, some [7], []⟩ ⟨none, none, []⟩ [7] [1, 2]
      (List.replicate 16 0) [] rfl (by decide) rfl (by decide)⟩

/-! ### C7: degraded mode -/

/-- C7 (amended): when Web Crypto is unavailable, every message the group
send flow emits is flagged `unencrypted`, and neither the login flow nor the
send flow attempts LOCAL key generation — but the send flow falls back to
BACKEND key generation whenever the local keys are missing (aborting the
send if that also fails). -/
theorem degraded_mode_unencrypted_no_local_keygen (serverPriv serverUserPub : Option Bytes)
    (fs : Nat) (store store2 : LocalStore) (text : Bytes)
    (backendKeys : Option (Bytes × Bytes)) (gk : Option Bytes) (iv : Bytes) :
    (loginFlow false serverPriv serverUserPub fs store2).keyGenAttempted = false
    ∧ (groupSendFlow false text store backendKeys fs gk iv).localKeyGenAttempted = false
    ∧ ((groupSendFlow false text store backendKeys fs gk iv).sent.all
        fun pl => pl.unencrypted) = true := by
  refine ⟨rfl, ?_, ?_⟩ <;>
    by_cases ht : text = [] <;>
      cases backendKeys <;> cases gk <;>
        simp [groupSendFlow, groupSendEncrypt, loadLocalPrivateKey,
          encryptWithAesKey, ht]

/-- C7 counterexample: with Web Crypto unavailable and no local keys, the
group send flow DOES attempt key generation — on the backend — contradicting
the claim that no key generation is attempted anywhere in the send flow. -/
theorem send_flow_attempts_backend_keygen :
    (groupSendFlow false [104] ⟨none, none, []⟩ (some ([1], [2])) 0 none [0]).backendKeyGenAttempted
      = true
    ∧ (groupSendFlow false [104] ⟨none, none, []⟩ (some ([1], [2])) 0 none [0]).sent =
        some ⟨[104], true, some [1]⟩ := by
  constructor
  · rfl
  · rfl

/-! ### Inversion lemmas for the attempt composites -/

/-- A successful cached-key attempt made exactly one decrypt call. -/
theorem tryCachedKey_eq_of_fst_some (h : Bool) (kb ct pt : Bytes)
    (hok : (tryCachedKey h kb ct).1 = some pt) :
    tryCachedKey h kb ct = (some pt, 1) := by
  unfold tryCachedKey at hok ⊢
  cases him : importAesKeyFromRawBase64 h kb with
  | thrown e => simp [him] at hok
  | ok k =>
    simp only [him] at hok ⊢
    cases hd : decryptWithAesKey h (some k) ct with
    | ok pt2 =>
      simp only [hd] at hok ⊢
      simp only [Option.some.injEq] at hok
      rw [hok]
    | thrown e => simp [hd] at hok

/-- A successful derive-then-decrypt attempt pins down the derivation and the
decrypt call, and forces Web Crypto to have been available. -/
theorem tryDerivedKey_some_inv (h : Bool) (priv : Option Nat) (pb ct k pt : Bytes)
    (hok : (tryDerivedKey h priv pb ct).1 = some (k, pt)) :
    deriveSharedAESKey h priv (some pb) = .ok k
    ∧ decryptWithAesKey h (some k) ct = .ok pt
    ∧ h = true := by
  unfold tryDerivedKey at hok
  cases h with
  | false => simp [deriveSharedAESKey] at hok
  | true =>
    cases hdv : deriveSharedAESKey true priv (some pb) with
    | thrown e => simp [hdv] at hok
    | ok k2 =>
      simp only [hdv] at hok
      cases hd : decryptWithAesKey true (some k2) ct with
      | thrown e => simp [hd] at hok
      | ok pt2 =>
        simp only [hd, Option.some.injEq, Prod.mk.injEq] at hok
        rcases hok with ⟨hk, hpt⟩
        subst hk
        subst hpt
        exact ⟨rfl, hd, rfl⟩

/-- A successful derive-then-decrypt attempt made exactly one decrypt call. -/
theorem tryDerivedKey_eq_of_fst_some (h : Bool) (priv : Option Nat) (pb ct k pt : Bytes)
    (hok : (tryDerivedKey h priv pb ct).1 = some (k, pt)) :
    tryDerivedKey h priv pb ct = (some (k, pt), 1) := by
  obtain ⟨hdv, hd, _⟩ := tryDerivedKey_some_inv h priv pb ct k pt hok
  unfold tryDerivedKey
  simp only [hdv, hd]

/-! ### C3: passthrough of unencrypted and short messages -/

/-- C3 (amended): if `meta.unencrypted` is set, or the base64 ciphertext
string has fewer than 29 characters (at most 21 decoded bytes — a stricter
bound than the 28-byte IV-plus-tag envelope), the group resolver returns the
ciphertext directly as the plaintext — except that file messages render as a
descriptive file label — and attempts no decryption; ciphertexts of 22 to 27
bytes, although shorter than a minimal valid AEAD envelope, are fed to the
decryption strategies instead. -/
theorem passthrough_unencrypted_or_short (env : GroupEnv) (store : LocalStore)
    (m : GroupMsg) (hct : m.ciphertext ≠ [])
    (hcond : m.metaUnencrypted = true ∨ b64Len m.ciphertext.length < 29) :
    resolveGroupMessage env store m = (⟨passThruPlain m, false, 0⟩, store) := by
  unfold resolveGroupMessage
  rw [if_neg hct]
  rcases hcond with h | h
  · rw [if_pos h]
  · by_cases hu : m.metaUnencrypted = true
    · rw [if_pos hu]
    · rw [if_neg hu, if_pos h]

/-- Concrete message for the C3 counterexample: a 24-byte ciphertext,
shorter than the 28-byte IV-plus-tag envelope but 32 base64 characters
long. -/
def c3msg : GroupMsg := ⟨some "alice", List.replicate 24 7, false, none, false, false, ""⟩

/-- Environment for the C3 counterexample. -/
def c3env : GroupEnv := ⟨true, "alice", some 1, some [3], fun _ => none⟩

/-- C3 counterexample: this message's ciphertext IS shorter than the minimum
valid AEAD envelope (24 < 12 + 16 bytes), yet the resolver does not return
the ciphertext as plaintext and attempts a decryption (the group-key
attempt), ending in the failure placeholder. -/
theorem short_envelope_not_passed_through :
    c3msg.ciphertext.length = 24
    ∧ c3msg.ciphertext.length < 12 + 16
    ∧ c3msg.metaUnencrypted = false
    ∧ (resolveGroupMessage c3env ⟨none, none, []⟩ c3msg).1.plain ≠ .bytes c3msg.ciphertext
    ∧ (resolveGroupMessage c3env ⟨none, none, []⟩ c3msg).1.attempts = 1
    ∧ (resolveGroupMessage c3env ⟨none, none, []⟩ c3msg).1.plain =
        .marker "[Decryption Error]" := by
  refine ⟨by decide, by decide, rfl, by decide, by decide, by decide⟩

/-- Witness for C3 at a concrete unencrypted message. -/
theorem passthrough_unencrypted_or_short_witness :
    (⟨some "bob", [1, 2, 3], true, none, false, false, ""⟩ : GroupMsg).ciphertext ≠ []
    ∧ ((⟨some "bob", [1, 2, 3], true, none, false, false, ""⟩ : GroupMsg).metaUnencrypted = true
        ∨ b64Len (⟨some "bob", [1, 2, 3], true, none, false, false, ""⟩ : GroupMsg).ciphertext.length < 29)
    ∧ resolveGroupMessage c3env ⟨none, none, []⟩
        ⟨some "bob", [1, 2, 3], true, none, false, false, ""⟩ =
      (⟨passThruPlain ⟨some "bob", [1, 2, 3], true, none, false, false, ""⟩, false, 0⟩,
        ⟨none, none, []⟩) :=
  ⟨by decide, Or.inl rfl,
    passthrough_unencrypted_or_short c3env ⟨none, none, []⟩
      ⟨some "bob", [1, 2, 3], true, none, false, false, ""⟩ (by decide) (Or.inl rfl)⟩

/-! ### Reduction lemmas for the group resolver -/

/-- When the passthrough checks fail and the group-key attempt (if any)
throws, the resolver continues with strategies 1-3. -/
theorem resolveGroupMessage_eq_strategies (env : GroupEnv) (store : LocalStore)
    (m : GroupMsg) (hct : m.ciphertext ≠ []) (hu : m.metaUnencrypted = false)
    (hlen : ¬ b64Len m.ciphertext.length < 29)
    (hgk : ∀ gk, env.groupKey = some gk →
      (decryptWithAesKey env.hasWebCrypto (some gk) m.ciphertext).isThrown = true) :
    ∃ a0, resolveGroupMessage env store m = resolveGroupStrategies env store m a0 := by
  unfold resolveGroupMessage
  rw [if_neg hct, hu]
  rw [if_neg (by simp : ¬ (false = true)), if_neg hlen]
  cases hg : env.groupKey with
  | none => exact ⟨0, rfl⟩
  | some gk =>
    show ∃ a0,
        (match decryptWithAesKey env.hasWebCrypto (some gk) m.ciphertext with
          | .ok pt => (⟨.bytes pt, false, 1⟩, store)
          | .thrown _ => resolveGroupStrategies env store m 1) =
          resolveGroupStrategies env store m a0
    cases hd : decryptWithAesKey env.hasWebCrypto (some gk) m.ciphertext with
    | ok pt =>
      have hth := hgk gk hg
      rw [hd] at hth
      simp [JSResult.isThrown] at hth
    | thrown e => exact ⟨1, rfl⟩

/-- A valid cached key for the sender short-circuits strategies 2-3: the
plaintext comes from the cache, no meta derivation is attempted and the
store is unchanged. -/
theorem resolveGroupStrategies_cached_hit (env : GroupEnv) (store : LocalStore)
    (m : GroupMsg) (a0 : Nat) (priv : Nat) (s : String) (kb pt : Bytes)
    (hpriv : env.myPriv = some priv) (hs : m.senderId = some s)
    (hkb : getEntry store.aesKeys s = some kb)
    (hok : (tryCachedKey env.hasWebCrypto kb m.ciphertext).1 = some pt) :
    resolveGroupStrategies env store m a0 = (⟨.bytes pt, false, a0 + 1⟩, store) := by
  have h1 : strat1 env store m = (some pt, 1) := by
    simp only [strat1, hs, hkb]
    exact tryCachedKey_eq_of_fst_some _ _ _ _ hok
  unfold resolveGroupStrategies
  simp only [hpriv, h1]

/-! ### C2: fallback ordering with a valid cached key and an invalid meta key -/

/-- C2 (amended): with a valid cached session key for the sender and an
invalid `meta.senderPublicKey`, the GROUP resolver succeeds via step 3 (the
cached key) without attempting the step-4 derivation; the older direct-chat
history resolver, by contrast, attempts the derivation from the invalid meta
key FIRST (it throws), and only then succeeds with its session key — the
returned plaintext still comes from the session key and the cache is left
unchanged. -/
theorem cached_key_shortcircuits_meta_derivation
    (env : GroupEnv) (store : LocalStore) (m : GroupMsg)
    (envc : ChatEnv) (storec : LocalStore) (mc : ChatMsg)
    (priv : Nat) (s : String) (kb pt : Bytes) (sc : String) (pbc ptc : Bytes)
    (hct : m.ciphertext ≠ []) (hu : m.metaUnencrypted = false)
    (hlen : ¬ b64Len m.ciphertext.length < 29)
    (hgk : ∀ gk, env.groupKey = some gk →
      (decryptWithAesKey env.hasWebCrypto (some gk) m.ciphertext).isThrown = true)
    (hpriv : env.myPriv = some priv) (hs : m.senderId = some s)
    (hkb : getEntry store.aesKeys s = some kb)
    (hok : (tryCachedKey env.hasWebCrypto kb m.ciphertext).1 = some pt)
    (hctc : mc.ciphertext ≠ []) (hsc : mc.senderId = some sc)
    (hnec : sc ≠ envc.myUserId) (hpbc : mc.metaSenderPublicKey = some pbc)
    (hbad : (deriveSharedAESKey envc.hasWebCrypto envc.myPriv (some pbc)).isThrown = true)
    (hses : decryptWithAesKey envc.hasWebCrypto (some envc.importedKey) mc.ciphertext
      = .ok ptc) :
    ((resolveGroupMessage env store m).1.plain = .bytes pt
      ∧ (resolveGroupMessage env store m).1.metaDeriveAttempted = false
      ∧ (resolveGroupMessage env store m).2 = store)
    ∧ ((resolveChatHistoryMessage envc storec mc).1.plain = .bytes ptc
      ∧ (resolveChatHistoryMessage envc storec mc).1.metaDeriveAttempted = true
      ∧ (resolveChatHistoryMessage envc storec mc).2 = storec) := by
  constructor
  · obtain ⟨a0, heq⟩ := resolveGroupMessage_eq_strategies env store m hct hu hlen hgk
    rw [heq, resolveGroupStrategies_cached_hit env store m a0 priv s kb pt hpriv hs hkb hok]
    exact ⟨rfl, rfl, rfl⟩
  · have hne2 : ¬ (mc.senderId = some envc.myUserId) := by
      rw [hsc]
      simp [hnec]
    unfold resolveChatHistoryMessage
    rw [if_neg hctc, if_neg hne2]
    simp only [hpbc]
    cases hdv : deriveSharedAESKey envc.hasWebCrypto envc.myPriv (some pbc) with
    | ok k =>
      rw [hdv] at hbad
      simp [JSResult.isThrown] at hbad
    | thrown e =>
      simp [hses]

/-- Session key shared by the C2 concrete scenario. -/
def cexKey : Bytes := [75]

/-- Concrete 12-byte IV. -/
def cexIv : Bytes := List.replicate 12 0

/-- Concrete envelope encrypting [104, 105] under `cexKey`. -/
def cexCt : Bytes := cexIv ++ aesGcmEncrypt cexKey cexIv [104, 105]

/-- Chat environment of the C2 counterexample: session key `cexKey`. -/
def c2env : ChatEnv := ⟨true, "alice", some 7, cexKey, fun _ => none⟩

/-- Store of the C2 counterexample: the sender's cached entry holds the same
valid session key. -/
def c2store : LocalStore := ⟨none, none, [("bob", cexKey)]⟩

/-- Message of the C2 counterexample: valid ciphertext under the cached
session key, invalid `meta.senderPublicKey` (not an importable curve
point). -/
def c2msg : ChatMsg := ⟨some "bob", cexCt, some [255]⟩

/-- C2 counterexample: the sender has a valid cached session key (decryption
under it succeeds), `meta.senderPublicKey` is invalid — yet the ChatWindow
history resolver DOES attempt the step-4 derivation from the meta key before
returning the session-key plaintext, refuting the claim that step 4 is never
attempted. -/
theorem chat_resolver_attempts_meta_derivation :
    getEntry c2store.aesKeys "bob" = some cexKey
    ∧ decryptWithAesKey true (some cexKey) c2msg.ciphertext = .ok [104, 105]
    ∧ (deriveSharedAESKey true (some 7) (some [255])).isThrown = true
    ∧ (resolveChatHistoryMessage c2env c2store c2msg).1.metaDeriveAttempted = true
    ∧ (resolveChatHistoryMessage c2env c2store c2msg).1.plain = .bytes [104, 105] := by
  refine ⟨by decide, by decide, by decide, by decide, by decide⟩

/-- Group environment for the C2 witness. -/
def c2genv : GroupEnv := ⟨true, "alice", some 7, none, fun _ => none⟩

/-- Group message for the C2 witness: same valid ciphertext and invalid meta
key. -/
def c2gmsg : GroupMsg := ⟨some "bob", cexCt, false, some [255], false, false, ""⟩

/-- Witness for C2 at the concrete scenario. -/
theorem cached_key_shortcircuits_meta_derivation_witness :
    ((resolveGroupMessage c2genv c2store c2gmsg).1.plain = .bytes [104, 105]
      ∧ (resolveGroupMessage c2genv c2store c2gmsg).1.metaDeriveAttempted = false
      ∧ (resolveGroupMessage c2genv c2store c2gmsg).2 = c2store)
    ∧ ((resolveChatHistoryMessage c2env c2store c2msg).1.plain = .bytes [104, 105]
      ∧ (resolveChatHistoryMessage c2env c2store c2msg).1.metaDeriveAttempted = true
      ∧ (resolveChatHistoryMessage c2env c2store c2msg).2 = c2store) :=
  cached_key_shortcircuits_meta_derivation c2genv c2store c2gmsg c2env c2store c2msg
    7 "bob" cexKey [104, 105] "bob" [255] [104, 105]
    (by decide) rfl (by decide) (fun gk h => Option.noConfusion h)
    rfl rfl (by decide) (by decide)
    (by decide) rfl (by decide) rfl (by decide) (by decide)

/-- A successful strategy-2 attempt (cached key absent or failing, meta key
present, derive-then-decrypt succeeding) persists the derived key for the
sender and returns its plaintext. -/
theorem resolveGroupStrategies_meta_hit (env : GroupEnv) (store : LocalStore)
    (m : GroupMsg) (a0 : Nat) (priv : Nat) (pb k pt : Bytes)
    (hpriv : env.myPriv = some priv)
    (hmiss : (strat1 env store m).1 = none)
    (hpb : m.metaSenderPublicKey = some pb)
    (hok : (tryDerivedKey env.hasWebCrypto (some priv) pb m.ciphertext).1 = some (k, pt)) :
    ∃ n, resolveGroupStrategies env store m a0 =
      (⟨.bytes pt, true, n⟩, saveAesKeyOpt m.senderId k store) := by
  have h2 := tryDerivedKey_eq_of_fst_some _ _ _ _ _ _ hok
  obtain ⟨n1, hstrat⟩ : ∃ n1, strat1 env store m = (none, n1) :=
    ⟨(strat1 env store m).2, by rw [← hmiss]⟩
  refine ⟨a0 + n1 + 1, ?_⟩
  unfold resolveGroupStrategies
  simp only [hpriv, hstrat, hpb, h2]

/-! ### C5: persistence of the meta-derived key and subsequent cache hits -/

/-- C5: when the cached key misses or fails, `meta.senderPublicKey` is
present and decryption succeeds with the freshly derived session key, the
resolver persists that key into the sender's cache entry (overwriting any
stale entry); a subsequent message from the same sender encrypted under the
same key then decrypts via the cached key alone, with no meta derivation. -/
theorem meta_key_persisted_then_cache_hit (env : GroupEnv) (store : LocalStore)
    (m m2 : GroupMsg) (priv : Nat) (s : String) (pb k pt pt2 : Bytes)
    (hct : m.ciphertext ≠ []) (hu : m.metaUnencrypted = false)
    (hlen : ¬ b64Len m.ciphertext.length < 29)
    (hgk : ∀ gk, env.groupKey = some gk →
      (decryptWithAesKey env.hasWebCrypto (some gk) m.ciphertext).isThrown = true)
    (hpriv : env.myPriv = some priv) (hs : m.senderId = some s)
    (hmiss : (strat1 env store m).1 = none)
    (hpb : m.metaSenderPublicKey = some pb)
    (hok : (tryDerivedKey env.hasWebCrypto (some priv) pb m.ciphertext).1 = some (k, pt))
    (hs2 : m2.senderId = some s) (hct2 : m2.ciphertext ≠ [])
    (hu2 : m2.metaUnencrypted = false) (hlen2 : ¬ b64Len m2.ciphertext.length < 29)
    (hgk2 : ∀ gk, env.groupKey = some gk →
      (decryptWithAesKey env.hasWebCrypto (some gk) m2.ciphertext).isThrown = true)
    (hdec2 : decryptWithAesKey env.hasWebCrypto (some k) m2.ciphertext = .ok pt2) :
    (resolveGroupMessage env store m).1.plain = .bytes pt
    ∧ (resolveGroupMessage env store m).2 = saveAesKeyForUser s k store
    ∧ loadAesKeyForUser s (resolveGroupMessage env store m).2 = some k
    ∧ (resolveGroupMessage env (resolveGroupMessage env store m).2 m2).1.plain = .bytes pt2
    ∧ (resolveGroupMessage env (resolveGroupMessage env store m).2 m2).1.metaDeriveAttempted
        = false
    ∧ (resolveGroupMessage env (resolveGroupMessage env store m).2 m2).2 =
        (resolveGroupMessage env store m).2 := by
  obtain ⟨a0, heq⟩ := resolveGroupMessage_eq_strategies env store m hct hu hlen hgk
  obtain ⟨n, hres⟩ :=
    resolveGroupStrategies_meta_hit env store m a0 priv pb k pt hpriv hmiss hpb hok
  have hsave : saveAesKeyOpt m.senderId k store = saveAesKeyForUser s k store := by
    rw [hs]
    rfl
  have hrun1 : resolveGroupMessage env store m =
      (⟨.bytes pt, true, n⟩, saveAesKeyForUser s k store) := by
    rw [heq, hres, hsave]
  have htrue : env.hasWebCrypto = true := (tryDerivedKey_some_inv _ _ _ _ _ _ hok).2.2
  have hload : loadAesKeyForUser s (saveAesKeyForUser s k store) = some k := by
    simpa [loadAesKeyForUser, saveAesKeyForUser] using
      getEntry_setEntry_self store.aesKeys s k
  have hok2 : (tryCachedKey env.hasWebCrypto k m2.ciphertext).1 = some pt2 := by
    rw [htrue] at hdec2 ⊢
    unfold tryCachedKey importAesKeyFromRawBase64
    simp only [if_neg (by simp : ¬ (true = false)), hdec2]
  obtain ⟨a0b, heq2⟩ :=
    resolveGroupMessage_eq_strategies env (saveAesKeyForUser s k store) m2 hct2 hu2 hlen2 hgk2
  have hkb2 : getEntry (saveAesKeyForUser s k store).aesKeys s = some k := hload
  have hrun2 : resolveGroupMessage env (saveAesKeyForUser s k store) m2 =
      (⟨.bytes pt2, false, a0b + 1⟩, saveAesKeyForUser s k store) := by
    rw [heq2]
    exact resolveGroupStrategies_cached_hit env _ m2 a0b priv s k pt2 hpriv hs2 hkb2 hok2
  rw [hrun1]
  refine ⟨rfl, rfl, hload, ?_, ?_, ?_⟩
  · show (resolveGroupMessage env (saveAesKeyForUser s k store) m2).1.plain = .bytes pt2
    rw [hrun2]
  · show (resolveGroupMessage env (saveAesKeyForUser s k store) m2).1.metaDeriveAttempted
      = false
    rw [hrun2]
  · show (resolveGroupMessage env (saveAesKeyForUser s k store) m2).2
      = saveAesKeyForUser s k store
    rw [hrun2]

/-- Environment of the C5 witness (own scalar 3, no group key). -/
def c5env : GroupEnv := ⟨true, "alice", some 3, none, fun _ => none⟩

/-- Store of the C5 witness: a STALE cached entry for the sender. -/
def c5store : LocalStore := ⟨none, none, [("bob", [42])]⟩

/-- Message of the C5 witness: ciphertext under the key shared between
scalars 3 and 5, sender public key `encodePub 5 = [25]` in the meta. -/
def c5msg : GroupMsg := ⟨some "bob", cexCt, false, some [25], false, false, ""⟩

/-- Witness for C5: the derived key [75] overwrites the stale entry and the
same message redelivered decrypts via the cache alone. -/
theorem meta_key_persisted_then_cache_hit_witness :
    (resolveGroupMessage c5env c5store c5msg).1.plain = .bytes [104, 105]
    ∧ (resolveGroupMessage c5env c5store c5msg).2 = saveAesKeyForUser "bob" [75] c5store
    ∧ loadAesKeyForUser "bob" (resolveGroupMessage c5env c5store c5msg).2 = some [75]
    ∧ (resolveGroupMessage c5env (resolveGroupMessage c5env c5store c5msg).2 c5msg).1.plain
        = .bytes [104, 105]
    ∧ (resolveGroupMessage c5env (resolveGroupMessage c5env c5store c5msg).2
        c5msg).1.metaDeriveAttempted = false
    ∧ (resolveGroupMessage c5env (resolveGroupMessage c5env c5store c5msg).2 c5msg).2 =
        (resolveGroupMessage c5env c5store c5msg).2 :=
  meta_key_persisted_then_cache_hit c5env c5store c5msg c5msg 3 "bob" [25] [75]
    [104, 105] [104, 105]
    (by decide) rfl (by decide) (fun gk h => Option.noConfusion h)
    rfl rfl (by decide) rfl (by decide)
    rfl (by decide) rfl (by decide) (fun gk h => Option.noConfusion h) (by decide)

/-! ### C4: terminal failure placeholder -/

/-- When the directory fetch cannot help, the group fetch phase ends in the
terminal placeholder without touching the store. -/
theorem resolveGroupFetch_fail (env : GroupEnv) (store : LocalStore) (m : GroupMsg)
    (priv : Nat) (flag : Bool) (acc : Nat)
    (hfetch : ∀ s, m.senderId = some s → s ≠ env.myUserId → ∀ pubS,
      env.directory s = some pubS →
      (tryDerivedKey env.hasWebCrypto (some priv) pubS m.ciphertext).1 = none) :
    ∃ n, resolveGroupFetch env store m priv flag acc =
      (⟨.marker "[Decryption Error]", flag, n⟩, store) := by
  unfold resolveGroupFetch
  cases hsid : m.senderId with
  | none => exact ⟨acc, rfl⟩
  | some s =>
    dsimp only []
    by_cases hme : s = env.myUserId
    · rw [if_pos hme]
      exact ⟨acc, rfl⟩
    · rw [if_neg hme]
      cases hdir : env.directory s with
      | none => exact ⟨acc, rfl⟩
      | some pubS =>
        dsimp only []
        obtain ⟨n2, htd⟩ : ∃ n2,
            tryDerivedKey env.hasWebCrypto (some priv) pubS m.ciphertext = (none, n2) :=
          ⟨_, by rw [← hfetch s hsid hme pubS hdir]⟩
        simp only [htd]
        exact ⟨acc + n2, rfl⟩

/-- When the cached key, the meta key and the directory fetch all fail, the
strategy chain ends in the terminal placeholder without touching the
store. -/
theorem resolveGroupStrategies_all_fail (env : GroupEnv) (store : LocalStore)
    (m : GroupMsg) (a0 : Nat) (priv : Nat)
    (hpriv : env.myPriv = some priv)
    (hmiss : (strat1 env store m).1 = none)
    (hmeta : ∀ pb, m.metaSenderPublicKey = some pb →
      (tryDerivedKey env.hasWebCrypto (some priv) pb m.ciphertext).1 = none)
    (hfetch : ∀ s, m.senderId = some s → s ≠ env.myUserId → ∀ pubS,
      env.directory s = some pubS →
      (tryDerivedKey env.hasWebCrypto (some priv) pubS m.ciphertext).1 = none) :
    ∃ flag n, resolveGroupStrategies env store m a0 =
      (⟨.marker "[Decryption Error]", flag, n⟩, store) := by
  obtain ⟨n1, hstrat⟩ : ∃ n1, strat1 env store m = (none, n1) := ⟨_, by rw [← hmiss]⟩
  unfold resolveGroupStrategies
  simp only [hpriv, hstrat]
  rcases Option.eq_none_or_eq_some m.metaSenderPublicKey with hpb | ⟨pb, hpb⟩
  · simp only [hpb]
    obtain ⟨n, hfe⟩ := resolveGroupFetch_fail env store m priv false (a0 + n1) hfetch
    exact ⟨false, n, hfe⟩
  · simp only [hpb]
    obtain ⟨n2, htd⟩ : ∃ n2,
        tryDerivedKey env.hasWebCrypto (some priv) pb m.ciphertext = (none, n2) :=
      ⟨_, by rw [← hmeta pb hpb]⟩
    simp only [htd]
    obtain ⟨n, hfe⟩ := resolveGroupFetch_fail env store m priv true (a0 + n1 + n2) hfetch
    exact ⟨true, n, hfe⟩

/-- When the directory fetch cannot help, the chat fetch phase ends in the
terminal placeholder without touching the store. -/
theorem chatFetchPhase_fail (env : ChatEnv) (store : LocalStore) (m : ChatMsg)
    (flag : Bool)
    (hfetch : ∀ s, m.senderId = some s → s ≠ env.myUserId → ∀ pubS,
      env.directory s = some pubS →
      (tryDerivedKey env.hasWebCrypto env.myPriv pubS m.ciphertext).1 = none) :
    chatFetchPhase env store m flag = (⟨.marker "[Decryption Error]", flag⟩, store) := by
  unfold chatFetchPhase
  cases hsid : m.senderId with
  | none => rfl
  | some s =>
    dsimp only []
    by_cases hme : s = env.myUserId
    · rw [if_pos hme]
    · rw [if_neg hme]
      cases hdir : env.directory s with
      | none => rfl
      | some pubS =>
        dsimp only []
        simp only [hfetch s hsid hme pubS hdir]

/-- When the session key, the meta key and the directory fetch all fail, the
ChatWindow history resolver ends in the terminal placeholder without
touching the store. -/
theorem resolveChatHistoryMessage_all_fail (env : ChatEnv) (store : LocalStore)
    (m : ChatMsg) (hct : m.ciphertext ≠ [])
    (hIK : (decryptWithAesKey env.hasWebCrypto (some env.importedKey)
      m.ciphertext).isThrown = true)
    (hmeta : ∀ pb, m.metaSenderPublicKey = some pb →
      (tryDerivedKey env.hasWebCrypto env.myPriv pb m.ciphertext).1 = none)
    (hfetch : ∀ s, m.senderId = some s → s ≠ env.myUserId → ∀ pubS,
      env.directory s = some pubS →
      (tryDerivedKey env.hasWebCrypto env.myPriv pubS m.ciphertext).1 = none) :
    ∃ flag, resolveChatHistoryMessage env store m =
      (⟨.marker "[Decryption Error]", flag⟩, store) := by
  have hIK2 : ∀ pt,
      decryptWithAesKey env.hasWebCrypto (some env.importedKey) m.ciphertext ≠ .ok pt := by
    intro pt hcc
    rw [hcc] at hIK
    simp [JSResult.isThrown] at hIK
  unfold resolveChatHistoryMessage
  rw [if_neg hct]
  by_cases hme : m.senderId = some env.myUserId
  · rw [if_pos hme]
    cases hd : decryptWithAesKey env.hasWebCrypto (some env.importedKey) m.ciphertext with
    | ok pt => exact absurd hd (hIK2 pt)
    | thrown e =>
      dsimp only []
      rcases Option.eq_none_or_eq_some m.metaSenderPublicKey with hpb | ⟨pb, hpb⟩
      · simp only [hpb]
        exact ⟨false, chatFetchPhase_fail env store m false hfetch⟩
      · simp only [hpb, hmeta pb hpb]
        exact ⟨true, chatFetchPhase_fail env store m true hfetch⟩
  · rw [if_neg hme]
    rcases Option.eq_none_or_eq_some m.metaSenderPublicKey with hpb | ⟨pb, hpb⟩
    · simp only [hpb]
      cases hd : decryptWithAesKey env.hasWebCrypto (some env.importedKey) m.ciphertext with
      | ok pt => exact absurd hd (hIK2 pt)
      | thrown e => exact ⟨false, chatFetchPhase_fail env store m false hfetch⟩
    · simp only [hpb]
      cases hdv : deriveSharedAESKey env.hasWebCrypto env.myPriv (some pb) with
      | ok k =>
        dsimp only []
        cases hd : decryptWithAesKey env.hasWebCrypto (some k) m.ciphertext with
        | ok pt =>
          have h0 := hmeta pb hpb
          unfold tryDerivedKey at h0
          simp only [hdv, hd] at h0
          exact Option.noConfusion h0
        | thrown e2 => exact ⟨true, chatFetchPhase_fail env store m true hfetch⟩
      | thrown e =>
        dsimp only []
        cases hd : decryptWithAesKey env.hasWebCrypto (some env.importedKey)
            m.ciphertext with
        | ok pt => exact absurd hd (hIK2 pt)
        | thrown e2 =>
          dsimp only []
          simp only [hmeta pb hpb]
          exact ⟨true, chatFetchPhase_fail env store m true hfetch⟩

/-- C4 (amended): an inbound message that enters the strategy chain and on
which every strategy fails is rendered as the opaque `[Decryption Error]`
placeholder — included in the history, cache untouched, and the chain is not
re-entered — in both the group resolver and the direct-chat history
resolver; the INCOMING socket handlers, however, drop messages whose sender
id or ciphertext is missing before any strategy runs. -/
theorem all_strategies_failed_placeholder (env : GroupEnv) (store : LocalStore)
    (m : GroupMsg) (envc : ChatEnv) (storec : LocalStore) (mc : ChatMsg) (priv : Nat)
    (hct : m.ciphertext ≠ []) (hu : m.metaUnencrypted = false)
    (hlen : ¬ b64Len m.ciphertext.length < 29)
    (hgk : ∀ gk, env.groupKey = some gk →
      (decryptWithAesKey env.hasWebCrypto (some gk) m.ciphertext).isThrown = true)
    (hpriv : env.myPriv = some priv)
    (hmiss : (strat1 env store m).1 = none)
    (hmeta : ∀ pb, m.metaSenderPublicKey = some pb →
      (tryDerivedKey env.hasWebCrypto (some priv) pb m.ciphertext).1 = none)
    (hfetch : ∀ s, m.senderId = some s → s ≠ env.myUserId → ∀ pubS,
      env.directory s = some pubS →
      (tryDerivedKey env.hasWebCrypto (some priv) pubS m.ciphertext).1 = none)
    (hctc : mc.ciphertext ≠ [])
    (hIKc : (decryptWithAesKey envc.hasWebCrypto (some envc.importedKey)
      mc.ciphertext).isThrown = true)
    (hmetac : ∀ pb, mc.metaSenderPublicKey = some pb →
      (tryDerivedKey envc.hasWebCrypto envc.myPriv pb mc.ciphertext).1 = none)
    (hfetchc : ∀ s, mc.senderId = some s → s ≠ envc.myUserId → ∀ pubS,
      envc.directory s = some pubS →
      (tryDerivedKey envc.hasWebCrypto envc.myPriv pubS mc.ciphertext).1 = none) :
    (resolveGroupMessage env store m).1.plain = .marker "[Decryption Error]"
    ∧ (resolveGroupMessage env store m).2 = store
    ∧ (resolveChatHistoryMessage envc storec mc).1.plain = .marker "[Decryption Error]"
    ∧ (resolveChatHistoryMessage envc storec mc).2 = storec := by
  obtain ⟨a0, heq⟩ := resolveGroupMessage_eq_strategies env store m hct hu hlen hgk
  obtain ⟨flag, n, hres⟩ :=
    resolveGroupStrategies_all_fail env store m a0 priv hpriv hmiss hmeta hfetch
  obtain ⟨flagc, hresc⟩ :=
    resolveChatHistoryMessage_all_fail envc storec mc hctc hIKc hmetac hfetchc
  rw [heq, hres, hresc]
  exact ⟨rfl, rfl, rfl, rfl⟩

/-- Message of the C4 counterexample: no sender id, undecryptable
ciphertext. -/
def c4msg : ChatMsg := ⟨none, List.replicate 40 0, none⟩

/-- C4 counterexample: the ChatWindow incoming handler DISCARDS this inbound
message (its guard returns before any strategy runs), so it is never
rendered as a placeholder — refuting the claim that no inbound message is
discarded. -/
theorem incoming_handler_discards_message :
    c4msg.ciphertext ≠ []
    ∧ (chatIncomingHandler c2env ⟨none, none, []⟩ c4msg).1 = none
    ∧ (chatIncomingHandler c2env ⟨none, none, []⟩ c4msg).2 = ⟨none, none, []⟩ := by
  refine ⟨by decide, by decide, by decide⟩

/-- Group environment of the C4 witness. -/
def c4genv : GroupEnv := ⟨true, "alice", some 1, none, fun _ => none⟩

/-- Group message of the C4 witness: invalid meta key, stale-free store, no
directory entry — every strategy fails. -/
def c4gmsg : GroupMsg := ⟨some "bob", List.replicate 28 0, false, some [255], false, false, ""⟩

/-- Chat environment of the C4 witness. -/
def c4cenv : ChatEnv := ⟨true, "alice", some 1, [9], fun _ => none⟩

/-- Chat message of the C4 witness. -/
def c4cmsg : ChatMsg := ⟨some "bob", List.replicate 28 0, none⟩

/-- Witness for C4 at the concrete all-fail scenario. -/
theorem all_strategies_failed_placeholder_witness :
    (resolveGroupMessage c4genv ⟨none, none, []⟩ c4gmsg).1.plain =
        .marker "[Decryption Error]"
    ∧ (resolveGroupMessage c4genv ⟨none, none, []⟩ c4gmsg).2 = ⟨none, none, []⟩
    ∧ (resolveChatHistoryMessage c4cenv ⟨none, none, []⟩ c4cmsg).1.plain =
        .marker "[Decryption Error]"
    ∧ (resolveChatHistoryMessage c4cenv ⟨none, none, []⟩ c4cmsg).2 = ⟨none, none, []⟩ :=
  all_strategies_failed_placeholder c4genv ⟨none, none, []⟩ c4gmsg
    c4cenv ⟨none, none, []⟩ c4cmsg 1
    (by decide) rfl (by decide) (fun gk h => Option.noConfusion h)
    rfl (by decide)
    (fun pb hpb => by rw [← Option.some.inj hpb]; decide)
    (fun s hs hne pubS hp => Option.noConfusion hp)
    (by decide) (by decide)
    (fun pb hpb => Option.noConfusion hpb)
    (fun s hs hne pubS hp => Option.noConfusion hp)

/-! ### C6: idempotence of the resolver -/

/-- The fetch phase either leaves the store unchanged or caches a key that
successfully decrypted the ciphertext of the message it returned. -/
theorem resolveGroupFetch_store_spec (env : GroupEnv) (store : LocalStore)
    (m : GroupMsg) (priv : Nat) (flag : Bool) (acc : Nat) :
    (resolveGroupFetch env store m priv flag acc).2 = store
    ∨ ∃ s k pt, m.senderId = some s ∧ env.hasWebCrypto = true
        ∧ decryptWithAesKey true (some k) m.ciphertext = .ok pt
        ∧ (resolveGroupFetch env store m priv flag acc).1.plain = .bytes pt
        ∧ (resolveGroupFetch env store m priv flag acc).2 = saveAesKeyForUser s k store := by
  unfold resolveGroupFetch
  rcases Option.eq_none_or_eq_some m.senderId with hsid | ⟨s, hsid⟩
  · simp only [hsid]
    left
    trivial
  · simp only [hsid]
    by_cases hme : s = env.myUserId
    · rw [if_pos hme]
      left
      trivial
    · rw [if_neg hme]
      rcases Option.eq_none_or_eq_some (env.directory s) with hdir | ⟨pubS, hdir⟩
      · simp only [hdir]
        left
        trivial
      · simp only [hdir]
        rcases htd : tryDerivedKey env.hasWebCrypto (some priv) pubS m.ciphertext with
          ⟨fst2, n2⟩
        cases fst2 with
        | none =>
          simp only [htd]
          left
          trivial
        | some kpt =>
          simp only [htd]
          obtain ⟨hdv, hd, htrue⟩ :=
            tryDerivedKey_some_inv env.hasWebCrypto (some priv) pubS m.ciphertext
              kpt.1 kpt.2 (by rw [htd])
          right
          refine ⟨s, kpt.1, kpt.2, rfl, htrue, ?_, rfl, rfl⟩
          rw [← htrue]
          exact hd

/-- The strategy chain either leaves the store unchanged or caches a key
that successfully decrypted the ciphertext of the message it returned. -/
theorem resolveGroupStrategies_store_spec (env : GroupEnv) (store : LocalStore)
    (m : GroupMsg) (a0 : Nat) :
    (resolveGroupStrategies env store m a0).2 = store
    ∨ ∃ s k pt, m.senderId = some s ∧ env.hasWebCrypto = true
        ∧ decryptWithAesKey true (some k) m.ciphertext = .ok pt
        ∧ (resolveGroupStrategies env store m a0).1.plain = .bytes pt
        ∧ (resolveGroupStrategies env store m a0).2 = saveAesKeyForUser s k store
        ∧ env.myPriv.isSome = true := by
  unfold resolveGroupStrategies
  rcases Option.eq_none_or_eq_some env.myPriv with hp | ⟨priv, hp⟩
  · simp only [hp]
    left
    trivial
  · simp only [hp]
    rcases hstrat : strat1 env store m with ⟨fst1, n1⟩
    cases fst1 with
    | some pt1 =>
      simp only [hstrat]
      left
      trivial
    | none =>
      simp only [hstrat]
      rcases Option.eq_none_or_eq_some m.metaSenderPublicKey with hpb | ⟨pb, hpb⟩
      · simp only [hpb]
        rcases resolveGroupFetch_store_spec env store m priv false (a0 + n1) with
          hL | ⟨s, k, pt, hA, hB, hC, hD, hE⟩
        · left; exact hL
        · right; exact ⟨s, k, pt, hA, hB, hC, hD, hE, rfl⟩
      · simp only [hpb]
        rcases htd : tryDerivedKey env.hasWebCrypto (some priv) pb m.ciphertext with
          ⟨fst2, n2⟩
        cases fst2 with
        | none =>
          simp only [htd]
          rcases resolveGroupFetch_store_spec env store m priv true (a0 + n1 + n2) with
            hL | ⟨s, k, pt, hA, hB, hC, hD, hE⟩
          · left; exact hL
          · right; exact ⟨s, k, pt, hA, hB, hC, hD, hE, rfl⟩
        | some kpt =>
          simp only [htd]
          obtain ⟨hdv, hd, htrue⟩ :=
            tryDerivedKey_some_inv env.hasWebCrypto (some priv) pb m.ciphertext
              kpt.1 kpt.2 (by rw [htd])
          rcases Option.eq_none_or_eq_some m.senderId with hsid | ⟨s, hsid⟩
          · left
            show (saveAesKeyOpt m.senderId kpt.1 store) = store
            rw [hsid]
            rfl
          · right
            refine ⟨s, kpt.1, kpt.2, hsid, htrue, ?_, rfl, ?_, rfl⟩
            · rw [← htrue]; exact hd
            · show (saveAesKeyOpt m.senderId kpt.1 store) = saveAesKeyForUser s kpt.1 store
              rw [hsid]
              rfl

/-- The full resolver either leaves the store unchanged, or it reached the
strategy chain and cached a key that successfully decrypted the message. -/
theorem resolveGroupMessage_store_spec (env : GroupEnv) (store : LocalStore)
    (m : GroupMsg) :
    (resolveGroupMessage env store m).2 = store
    ∨ ∃ s k pt, m.senderId = some s ∧ env.hasWebCrypto = true
        ∧ decryptWithAesKey true (some k) m.ciphertext = .ok pt
        ∧ (resolveGroupMessage env store m).1.plain = .bytes pt
        ∧ (resolveGroupMessage env store m).2 = saveAesKeyForUser s k store
        ∧ m.ciphertext ≠ [] ∧ m.metaUnencrypted = false
        ∧ ¬ b64Len m.ciphertext.length < 29
        ∧ (∀ gk, env.groupKey = some gk →
            (decryptWithAesKey env.hasWebCrypto (some gk) m.ciphertext).isThrown = true)
        ∧ env.myPriv.isSome = true := by
  unfold resolveGroupMessage
  by_cases h1 : m.ciphertext = []
  · rw [if_pos h1]; left; rfl
  rw [if_neg h1]
  by_cases h2 : m.metaUnencrypted = true
  · rw [if_pos h2]; left; rfl
  rw [if_neg h2]
  have h2f : m.metaUnencrypted = false := by
    revert h2
    cases m.metaUnencrypted <;> simp
  by_cases h3 : b64Len m.ciphertext.length < 29
  · rw [if_pos h3]; left; rfl
  rw [if_neg h3]
  cases hg : env.groupKey with
  | none =>
    rcases resolveGroupStrategies_store_spec env store m 0 with
      hL | ⟨s, k, pt, hA, hB, hC, hD, hE, hF⟩
    · left; exact hL
    · right
      exact ⟨s, k, pt, hA, hB, hC, hD, hE, h1, h2f, h3,
        fun gk2 hgg => Option.noConfusion hgg, hF⟩
  | some gk =>
    dsimp only []
    cases hd : decryptWithAesKey env.hasWebCrypto (some gk) m.ciphertext with
    | ok pt => left; rfl
    | thrown e =>
      rcases resolveGroupStrategies_store_spec env store m 1 with
        hL | ⟨s, k, pt, hA, hB, hC, hD, hE, hF⟩
      · left; exact hL
      · right
        refine ⟨s, k, pt, hA, hB, hC, hD, hE, h1, h2f, h3, ?_, hF⟩
        intro gk2 hgg
        rw [← Option.some.inj hgg, hd]
        rfl

/-- C6: decryption is idempotent — `decryptWithAesKey` is a pure function of
its key and ciphertext, and running the resolver a second time on the same
message (from the cache state the first run produced) yields the same
plaintext and leaves the session-key cache exactly as after the first
run. -/
theorem resolver_idempotent (env : GroupEnv) (store : LocalStore) (m : GroupMsg) :
    (∀ (h : Bool) (k : Option Bytes) (c : Bytes),
      decryptWithAesKey h k c = decryptWithAesKey h k c)
    ∧ (resolveGroupMessage env (resolveGroupMessage env store m).2 m).1.plain
        = (resolveGroupMessage env store m).1.plain
    ∧ (resolveGroupMessage env (resolveGroupMessage env store m).2 m).2
        = (resolveGroupMessage env store m).2 := by
  refine ⟨fun _ _ _ => rfl, ?_⟩
  rcases resolveGroupMessage_store_spec env store m with
    hL | ⟨s, k, pt, hs, htrue, hdec, hplain, hstore, hct, hu, hlen, hgk, hpriv⟩
  · rw [hL]
    exact ⟨rfl, hL⟩
  · obtain ⟨priv, hpv⟩ := Option.isSome_iff_exists.mp hpriv
    rw [hstore]
    obtain ⟨a0b, heq2⟩ :=
      resolveGroupMessage_eq_strategies env (saveAesKeyForUser s k store) m hct hu hlen hgk
    have hkb2 : getEntry (saveAesKeyForUser s k store).aesKeys s = some k := by
      simpa [saveAesKeyForUser] using getEntry_setEntry_self store.aesKeys s k
    have hok2 : (tryCachedKey env.hasWebCrypto k m.ciphertext).1 = some pt := by
      rw [htrue]
      unfold tryCachedKey importAesKeyFromRawBase64
      simp only [if_neg (by simp : ¬ (true = false)), hdec]
    have hrun2 := resolveGroupStrategies_cached_hit env (saveAesKeyForUser s k store) m
      a0b priv s k pt hpv hs hkb2 hok2
    rw [heq2, hrun2]
    exact ⟨by rw [hplain], rfl⟩
